import Mathlib

/-!
Shallow embedding of the query-compilation pipeline in
`src/pages/api/search.ts` (functions `convertNaturalLanguageToArtsyParams`,
`queryArtsy`, and the default-exported `handler`), together with theorems
settling the specification claims about it.

JavaScript runtime values flowing through the pipeline are modelled by
`JSValue`; objects with string keys are modelled by association lists
(`Record`).  The two external collaborators (the generative-model client and
the catalog endpoint reached with `fetch`) are modelled as oracle inputs: a
`ModelResult` describing what the model call produced and a `FetchResponse`
describing the catalog's HTTP answer.  Each pipeline function additionally
returns the list of external calls it performed, so that claims of the form
"... before any external call is made" are statable.
-/

/-- JavaScript runtime value, as far as the pipeline inspects values:
strings, booleans, numbers (modelled as integers; the pipeline never does
arithmetic), arrays, `null` and `undefined`. -/
inductive JSValue where
  | vStr : String → JSValue
  | vBool : Bool → JSValue
  | vNum : Int → JSValue
  | vArr : List JSValue → JSValue
  | vNull : JSValue
  | vUndefined : JSValue

/-- JavaScript object with string keys, modelled as an association list in
property-insertion order.  A genuine JS object never holds a duplicate key. -/
abbrev Record := List (String × JSValue)

/-- JSON document, used for the request body and for the decoded catalog
response body. -/
inductive JSON where
  | jNull : JSON
  | jBool : Bool → JSON
  | jNum : Int → JSON
  | jStr : String → JSON
  | jArr : List JSON → JSON
  | jObj : List (String × JSON) → JSON

/-- JavaScript truthiness for the values of `JSValue`:  `""`, `false`, `0`,
`null` and `undefined` are falsy, everything else (including empty arrays
and objects) is truthy. -/
def jsTruthy : JSValue → Bool
  | .vStr s => s ≠ ""
  | .vBool b => b
  | .vNum n => n ≠ 0
  | .vArr _ => true
  | .vNull => false
  | .vUndefined => false

/-- Property read `r.k` followed by a truthiness test (`!r.k` in the source);
an absent property is `undefined`, hence falsy. -/
def rtruthy (r : Record) (k : String) : Bool :=
  match r.lookup k with
  | some v => jsTruthy v
  | none => false

/-- Property assignment `r[k] = v`: overwrite in place if the key exists,
otherwise append in insertion order. -/
def rset (r : Record) (k : String) (v : JSValue) : Record :=
  if (r.lookup k).isSome then
    r.map (fun e => if e.1 == k then (k, v) else e)
  else
    r ++ [(k, v)]

/-- JavaScript `s.trim()`: strip leading and trailing whitespace.  Modelled
at character level with `Char.isWhitespace` (the JS method also strips a few
rarer Unicode spaces; no claim depends on those). -/
def jsTrim (s : String) : String :=
  ⟨((s.data.dropWhile Char.isWhitespace).reverse.dropWhile Char.isWhitespace).reverse⟩

/-- Filter applied per field in the "basic cleaning" loop of
`convertNaturalLanguageToArtsyParams` (lines 114-129): drop `undefined` and
`null` values, empty arrays, and strings that are empty after trimming. -/
def keepInClean : JSValue → Bool
  | .vUndefined => false
  | .vNull => false
  | .vArr l => !l.isEmpty
  | .vStr s => !(jsTrim s == "")
  | _ => true

/-- The cleaning loop itself: it copies every own key of `args` whose value
passes `keepInClean` into a fresh object, in iteration order.  Since a JS
object holds no duplicate keys, this is a filter of the association list. -/
def cleanArgs (args : Record) : Record :=
  args.filter (fun e => keepInClean e.2)

/-- Per-value test inside `Object.values(cleanedArgs).some(...)` of the
"effectively empty" fallback check (lines 134-140):
`v !== undefined && v !== null && v !== "" && (!Array.isArray(v) || v.length > 0)`. -/
def someTestNonEmpty : JSValue → Bool
  | .vUndefined => false
  | .vNull => false
  | .vStr s => s ≠ ""
  | .vArr l => l.length > 0
  | _ => true

/-- Sanitization applied to the arguments of a recognized tool call
(lines 113-163 of the source): clean the fields, fall back to
`{ keyword: query }` when the result is effectively empty, and inject
`keyword = query` when no primary field (`keyword`, `artistIDs`, `medium`,
`color`) is present truthy. -/
def processArgs (query : String) (args : Record) : Record :=
  let cleanedArgs := cleanArgs args
  if cleanedArgs.isEmpty || !(cleanedArgs.any (fun e => someTestNonEmpty e.2)) then
    [("keyword", .vStr query)]
  else if !(rtruthy cleanedArgs "keyword") && !(rtruthy cleanedArgs "artistIDs")
      && !(rtruthy cleanedArgs "medium") && !(rtruthy cleanedArgs "color") then
    rset cleanedArgs "keyword" (.vStr query)
  else
    cleanedArgs

/-- Structured call returned by the model: a tool name and its arguments. -/
structure FunCall where
  name : String
  args : Record

/-- Outcome of the single model call, as the source observes it:
`errored` when `chat.sendMessage` threw, otherwise the value of
`response.functionCalls()` (which may be `undefined` or an empty list). -/
inductive ModelResult where
  | errored : ModelResult
  | returned : Option (List FunCall) → ModelResult

/-- Test deciding that extraction is unusable, mirroring the source's
`functionCalls && functionCalls.length > 0 && functionCalls[0].name === "searchArtsyArtworks"`
guard together with the surrounding `try`/`catch`. -/
def extractionFailed : ModelResult → Bool
  | .errored => true
  | .returned none => true
  | .returned (some []) => true
  | .returned (some (c :: _)) => c.name ≠ "searchArtsyArtworks"

/-- Deployment configuration read from `process.env`: a missing variable is
`none`.  `envTruthy` is the `!apiKey` / `!token` style truthiness test the
source applies (an empty-string variable is falsy as well). -/
structure Config where
  googleApiKey : Option String
  artsyAccessToken : Option String
  artsyUserId : Option String
  artsyApiUrl : Option String

/-- Truthiness of an environment variable as the source's guards test it. -/
def envTruthy : Option String → Bool
  | some s => s ≠ ""
  | none => false

/-- External calls the pipeline can perform, recorded in issue order. -/
inductive ExtCall where
  | modelCall : ExtCall
  | catalogCall : ExtCall
deriving DecidableEq, Repr

/-- Errors thrown inside the pipeline (the source throws `Error` values; the
constructor records the class of failure, the message is recovered by
`pipeErrorMessage`). -/
inductive PipeError where
  | configError : String → PipeError
  | transportError : Nat → String → PipeError
  | protocolError : JSON → PipeError
  | typeError : String → PipeError

/-- Embedding of `convertNaturalLanguageToArtsyParams` (lines 17-175).
Returns the external calls performed and either the thrown error (only the
missing-API-key guard can throw: the `try`/`catch` swallows every model
failure) or the sanitized parameter record.  The model call is performed in
every branch that passes the key guard, including the ones where it errors
or returns no usable tool call. -/
def convertNaturalLanguageToArtsyParams (cfg : Config) (query : String)
    (mr : ModelResult) : List ExtCall × Except PipeError Record :=
  if !(envTruthy cfg.googleApiKey) then
    ([], .error (.configError "API key is not defined"))
  else
    ([.modelCall],
      .ok (match mr with
        | .errored => [("keyword", .vStr query)]
        | .returned none => [("keyword", .vStr query)]
        | .returned (some []) => [("keyword", .vStr query)]
        | .returned (some (c :: _)) =>
          if c.name == "searchArtsyArtworks" then processArgs query c.args
          else [("keyword", .vStr query)]))

/-- Global replacement `value.replace(/"/g, "\\\x22")` at character level:
every quote character is replaced by a backslash followed by a quote.
Nothing else — in particular no backslash — is escaped. -/
def escQuote : List Char → List Char
  | [] => []
  | c :: rest => if c = '"' then '\\' :: '"' :: escQuote rest else c :: escQuote rest

/-- String form of the quote-escaping replacement. -/
def escapeQuotes (s : String) : String := ⟨escQuote s.data⟩

/-- JavaScript `arr.join(sep)` on a list of strings. -/
def joinSep (sep : String) : List String → String
  | [] => ""
  | [s] => s
  | s :: rest => s ++ sep ++ joinSep sep rest

mutual

/-- JavaScript `String(v)` coercion, as applied by template literals to the
non-string, non-boolean, non-array branch of the serializer and to non-string
array elements. -/
def jsValToString : JSValue → String
  | .vStr s => s
  | .vBool true => "true"
  | .vBool false => "false"
  | .vNum n => toString n
  | .vNull => "null"
  | .vUndefined => "undefined"
  | .vArr l => jsArrToString l

/-- JavaScript array-to-string coercion `arr.join(",")`, in which `null` and
`undefined` elements render as empty strings. -/
def jsArrToString : List JSValue → String
  | [] => ""
  | [.vNull] => ""
  | [.vUndefined] => ""
  | [v] => jsValToString v
  | .vNull :: rest => "," ++ jsArrToString rest
  | .vUndefined :: rest => "," ++ jsArrToString rest
  | v :: rest => jsValToString v ++ "," ++ jsArrToString rest

end

/-- Rendering of one array element inside the serializer's
`value.map(v => typeof v === "string" ? `"${v.replace(...)}"` : v).join(", ")`:
strings are quoted with quote characters escaped, every other element is
rendered by the join's `String` coercion (`null`/`undefined` as empty). -/
def arrayElemString : JSValue → String
  | .vStr s => "\"" ++ escapeQuotes s ++ "\""
  | .vNull => ""
  | .vUndefined => ""
  | v => jsValToString v

/-- Serialization of one filter value into GraphQL argument syntax
(lines 201-213 of the source): strings are quoted with quotes escaped,
booleans pass through bare, arrays become bracketed comma-separated lists
with the same per-element rule, and anything else is coerced by the
template literal. -/
def graphQLValue : JSValue → String
  | .vStr s => "\"" ++ escapeQuotes s ++ "\""
  | .vBool true => "true"
  | .vBool false => "false"
  | .vArr l => "[" ++ joinSep ", " (l.map arrayElemString) ++ "]"
  | v => jsValToString v

/-- Drop test of the serializer (lines 192-198): `null`, `undefined`, empty
arrays and trim-empty strings produce no filter argument. -/
def droppedInFilter : JSValue → Bool
  | .vNull => true
  | .vUndefined => true
  | .vArr l => l.isEmpty
  | .vStr s => jsTrim s == ""
  | _ => false

/-- The `filterArgs` string of `queryArtsy` (lines 190-217): each surviving
entry becomes `key: value`, joined with `", "`. -/
def filterArgs (params : Record) : String :=
  joinSep ", "
    (params.filterMap (fun e =>
      if droppedInFilter e.2 then none else some (e.1 ++ ": " ++ graphQLValue e.2)))

/-- Truthiness of the optional `after` cursor argument (`after ? ... : ...`):
`null`/`undefined` and the empty string are falsy. -/
def afterTruthy : Option String → Bool
  | some s => s ≠ ""
  | none => false

/-- The `queryDefinition` template of `queryArtsy` (lines 220-222): the
`$after: String` parameter is declared only when the cursor is truthy. -/
def queryDefinition (after : Option String) : String :=
  "query SearchArtworks($size: Int" ++
    (if afterTruthy after then ", $after: String" else "") ++ ")"

/-- The `connectionArgs` template of `queryArtsy` (lines 224-226): the
`after: $after` argument is appended only when the cursor is truthy. -/
def connectionArgs (params : Record) (after : Option String) : String :=
  "first: $size, " ++ filterArgs params ++
    (if afterTruthy after then ", after: $after" else "")

/-- The full compiled query text (the template literal at lines 229-249). -/
def graphqlQueryText (params : Record) (after : Option String) : String :=
  "\n      " ++ queryDefinition after ++ " \x7b\n        artworksConnection(" ++
    connectionArgs params after ++
    ") \x7b\n          edges \x7b\n            node \x7b\n              internalID\n              title\n              slug\n              date\n              medium\n              artists \x7b name slug \x7d\n              image \x7b url(version: \"large\") aspectRatio \x7d\n            \x7d\n          \x7d\n          pageInfo \x7b # Always fetch pageInfo\n            hasNextPage\n            endCursor\n          \x7d\n        \x7d\n      \x7d\n    "

/-- The variable bindings of the compiled query (lines 250-254): `size` is
always bound to 18, `after` is included only when truthy. -/
def graphqlVariables (after : Option String) : Record :=
  [("size", .vNum 18)] ++
    (match after with
      | some s => if s ≠ "" then [("after", .vStr s)] else []
      | none => [])

/-- Property read `j.k` on a decoded JSON document that is not `null`:
`none` models the `undefined` produced by a missing key or by reading a
property of a non-null primitive (JavaScript boxes primitives, so `(42).k`
is `undefined`, not an error).  A read on `null` throws a TypeError in
JavaScript; every use site of `jget` therefore handles the `null` case
separately first (the handler's destructure branch, and the normalizer's
TypeError branch), and `jget` itself is only reached with a non-null value. -/
def jget : JSON → String → Option JSON
  | .jObj fields, k => fields.lookup k
  | _, _ => none

/-- Test for the JSON value `null`, on which any property read or
destructuring throws a TypeError. -/
def isJNull : JSON → Bool
  | .jNull => true
  | _ => false

/-- JavaScript truthiness for decoded JSON values. -/
def jsonTruthy : JSON → Bool
  | .jNull => false
  | .jBool b => b
  | .jNum n => n ≠ 0
  | .jStr s => s ≠ ""
  | .jArr _ => true
  | .jObj _ => true

/-- Truthiness of the property read `j.k` (absent property is falsy). -/
def jgetTruthy (j : JSON) (k : String) : Bool :=
  match jget j k with
  | some v => jsonTruthy v
  | none => false

/-- Truthiness of the chained read `j.k1.k2`, evaluated only when `j.k1` was
already known truthy (short-circuit of `!result.data || !result.data.artworksConnection`). -/
def jget2Truthy (j : JSON) (k1 k2 : String) : Bool :=
  match jget j k1 with
  | some v => jgetTruthy v k2
  | none => false

/-- Escaping of one character inside `JSON.stringify` string output. -/
def jsonEscapeChar (c : Char) : List Char :=
  if c = '"' then ['\\', '"'] else if c = '\\' then ['\\', '\\'] else [c]

/-- String escaping of `JSON.stringify`. -/
def jsonEscape (s : String) : String := ⟨s.data.foldr (fun c acc => jsonEscapeChar c ++ acc) []⟩

mutual

/-- JavaScript `JSON.stringify`, as used to build the protocol-error message
`GraphQL errors: ${JSON.stringify(result.errors)}`. -/
def jsonStringify : JSON → String
  | .jNull => "null"
  | .jBool true => "true"
  | .jBool false => "false"
  | .jNum n => toString n
  | .jStr s => "\"" ++ jsonEscape s ++ "\""
  | .jArr l => "[" ++ jsonStringifyArr l ++ "]"
  | .jObj l => "\x7b" ++ jsonStringifyObj l ++ "\x7d"

/-- Comma-separated stringification of array items. -/
def jsonStringifyArr : List JSON → String
  | [] => ""
  | [x] => jsonStringify x
  | x :: rest => jsonStringify x ++ "," ++ jsonStringifyArr rest

/-- Comma-separated stringification of object fields. -/
def jsonStringifyObj : List (String × JSON) → String
  | [] => ""
  | [(k, v)] => "\"" ++ jsonEscape k ++ "\":" ++ jsonStringify v
  | (k, v) :: rest =>
    "\"" ++ jsonEscape k ++ "\":" ++ jsonStringify v ++ "," ++ jsonStringifyObj rest

end

/-- Message carried by each thrown `Error` of the pipeline. -/
def pipeErrorMessage : PipeError → String
  | .configError m => m
  | .transportError status statusText =>
    "Failed to fetch from Artsy: " ++ toString status ++ " " ++ statusText
  | .protocolError errs => "GraphQL errors: " ++ jsonStringify errs
  | .typeError m => m

/-- Catalog HTTP response as `queryArtsy` observes it through `fetch`:
the transport flag `ok` with status data, and the decoded JSON body
(`response.json()` on the success path). -/
structure FetchResponse where
  ok : Bool
  status : Nat
  statusText : String
  body : JSON

/-- The canonical empty result shape returned when the decoded body lacks
`data.artworksConnection` (lines 300-305 of the source). -/
def canonicalEmpty : JSON :=
  .jObj [("artworksConnection", .jObj
    [("edges", .jArr []),
     ("pageInfo", .jObj [("hasNextPage", .jBool false), ("endCursor", .jNull)])])]

/-- Response validation and shaping of `queryArtsy` (lines 270-308).
On a non-ok transport status the source first tries to re-parse the error
body and throw a GraphQL-errors error, but that inner `throw` sits inside
its own `try`/`catch` and is always swallowed (lines 274-282); the error that
escapes is invariably the transport error of line 283.  On an ok status,
when the decoded body is the JSON value `null`, the very first property read
`result.errors` at line 291 throws a TypeError (which the handler's `catch`
will surface as a 500); otherwise a truthy `errors` field raises the
protocol error; a falsy `data` or `data.artworksConnection` yields the
canonical empty shape; and otherwise `result.data` is returned unchanged. -/
def normalizeArtsyResponse (resp : FetchResponse) : Except PipeError JSON :=
  if !resp.ok then
    .error (.transportError resp.status resp.statusText)
  else if isJNull resp.body then
    .error (.typeError "Cannot read properties of null (reading 'errors')")
  else if jgetTruthy resp.body "errors" then
    .error (.protocolError ((jget resp.body "errors").getD .jNull))
  else if !(jgetTruthy resp.body "data") || !(jget2Truthy resp.body "data" "artworksConnection") then
    .ok canonicalEmpty
  else
    .ok ((jget resp.body "data").getD .jNull)

/-- Embedding of `queryArtsy` (lines 178-309): check the catalog
configuration (the token and the endpoint URL are tested; `ARTSY_USER_ID` is
read but never checked), compile the query, perform the fetch, and
validate/shape the response.  The compiled query text itself does not alter
control flow; it is what the single catalog call carries. -/
def queryArtsy (cfg : Config) (params : Record) (after : Option String)
    (resp : FetchResponse) : List ExtCall × Except PipeError JSON :=
  if !(envTruthy cfg.artsyAccessToken) || !(envTruthy cfg.artsyApiUrl) then
    ([], .error (.configError "Artsy API token or URL is not defined"))
  else
    let _query : String := graphqlQueryText params after
    let _variables : Record := graphqlVariables after
    ([.catalogCall], normalizeArtsyResponse resp)

/-- Incoming HTTP request as the handler observes it. -/
structure ApiRequest where
  method : String
  body : JSON

/-- Outgoing response: status code, optional `Allow` header, JSON body. -/
structure ApiResponse where
  status : Nat
  allowHeader : Option (List String)
  body : JSON

/-- Truthiness of a possibly-absent destructured field. -/
def optTruthy : Option JSON → Bool
  | some v => jsonTruthy v
  | none => false

/-- Test `typeof x === "string"` on a destructured field. -/
def isJStrOpt : Option JSON → Bool
  | some (.jStr _) => true
  | _ => false

/-- String content of a destructured field known to be a string. -/
def strOfOpt : Option JSON → String
  | some (.jStr s) => s
  | _ => ""

/-- The handler's query validation (line 325):
`!query || typeof query !== "string" || query.trim() === ""`. -/
def queryFieldInvalid (body : JSON) : Bool :=
  !(optTruthy (jget body "query")) || !(isJStrOpt (jget body "query")) ||
    jsTrim (strOfOpt (jget body "query")) == ""

/-- The handler's cursor validation (line 329):
`after && typeof after !== "string"` — only a truthy non-string is rejected. -/
def afterFieldInvalid (body : JSON) : Bool :=
  optTruthy (jget body "after") && !(isJStrOpt (jget body "after"))

/-- The `after || null` coercion of line 341: a truthy string passes
through, every falsy value becomes `null`. -/
def afterOrNull : Option JSON → Option String
  | some (.jStr s) => if s == "" then none else some s
  | _ => none

/-- Internal-failure response produced by the handler's `catch` (lines
344-350): status 500 with the thrown error's message. -/
def errResp500 (e : PipeError) : ApiResponse :=
  { status := 500, allowHeader := none,
    body := .jObj [("error", .jStr (pipeErrorMessage e))] }

/-- Embedding of the default-exported `handler` (lines 312-351), returning
the list of external calls performed alongside the response.  Non-POST
methods are rejected with 405 and an `Allow` header; a `null` body makes the
destructuring of line 323 throw, which the `catch` turns into a 500; the two
input validations return 400 before anything else runs; then the two
pipeline stages execute in order, any thrown error becoming a 500. -/
def handler (cfg : Config) (mr : ModelResult) (fresp : FetchResponse)
    (req : ApiRequest) : List ExtCall × ApiResponse :=
  if req.method ≠ "POST" then
    ([], { status := 405, allowHeader := some ["POST"],
           body := .jObj [("error", .jStr ("Method " ++ req.method ++ " Not Allowed"))] })
  else if isJNull req.body then
    ([], { status := 500, allowHeader := none,
           body := .jObj [("error", .jStr "Cannot destructure property 'query' of 'req.body' as it is null.")] })
  else if queryFieldInvalid req.body then
    ([], { status := 400, allowHeader := none,
           body := .jObj [("error", .jStr "Invalid or empty query provided")] })
  else if afterFieldInvalid req.body then
    ([], { status := 400, allowHeader := none,
           body := .jObj [("error", .jStr "Invalid 'after' cursor provided")] })
  else
    match convertNaturalLanguageToArtsyParams cfg (strOfOpt (jget req.body "query")) mr with
    | (calls1, .error e) => (calls1, errResp500 e)
    | (calls1, .ok params) =>
      match queryArtsy cfg params (afterOrNull (jget req.body "after")) fresp with
      | (calls2, .error e) => (calls1 ++ calls2, errResp500 e)
      | (calls2, .ok d) =>
        (calls1 ++ calls2, { status := 200, allowHeader := none, body := d })

/-!  Property-side definitions used to state the claims. -/

/-- Lexer state while scanning a query text for GraphQL string literals:
outside any literal, inside a literal, or inside a literal right after a
backslash. -/
inductive LexState where
  | outside : LexState
  | inString : LexState
  | inEscape : LexState
deriving DecidableEq, Repr

/-- One step of the string-literal lexer. -/
def stepChar : LexState → Char → LexState
  | .outside, c => if c = '"' then .inString else .outside
  | .inString, c => if c = '"' then .outside else if c = '\\' then .inEscape else .inString
  | .inEscape, _ => .inString

/-- State of the string-literal lexer after scanning a character list. -/
def scanChars (st : LexState) (cs : List Char) : LexState :=
  cs.foldl stepChar st

/-- A query text is well-formed with respect to its string literals when
scanning it from outside ends outside: every quote that opens a literal is
matched by a closing quote, no literal is terminated early by an unescaped
quote, and no literal runs off the end of the text. -/
def wellFormedStrings (s : String) : Bool :=
  scanChars .outside s.data == .outside

/-- A normalized result carries a complete `pageInfo` precisely when its
`artworksConnection` member has a `pageInfo` object on which both
`hasNextPage` and `endCursor` are defined. -/
def pageInfoComplete (d : JSON) : Bool :=
  match jget d "artworksConnection" with
  | some conn =>
    match jget conn "pageInfo" with
    | some pi => (jget pi "hasNextPage").isSome && (jget pi "endCursor").isSome
    | none => false
  | none => false

/-- The decoded body lacks the expected result substructure: `result.data`
is absent or falsy, or `result.data.artworksConnection` is absent or falsy
(the condition of line 297 of the source). -/
def connectionMissing (body : JSON) : Bool :=
  !(jgetTruthy body "data") || !(jget2Truthy body "data" "artworksConnection")

/-- Test that a value is a string. -/
def isVStr : JSValue → Bool
  | .vStr _ => true
  | _ => false

/-- Test that a value is an array of strings. -/
def isStrArr : JSValue → Bool
  | .vArr l => l.all isVStr
  | _ => false

/-- Test that a value is a boolean. -/
def isVBool : JSValue → Bool
  | .vBool _ => true
  | _ => false

/-- Well-typedness of one FilterSpec field, following the data model: the
string fields `keyword`, `medium`, `color`, `priceRange` hold strings; the
sequence fields `artistIDs`, `partnerIDs`, `attributionClass` hold arrays of
strings; `forSale` holds a boolean. -/
def wellTypedField (k : String) (v : JSValue) : Bool :=
  if k = "keyword" ∨ k = "medium" ∨ k = "color" ∨ k = "priceRange" then isVStr v
  else if k = "artistIDs" ∨ k = "partnerIDs" ∨ k = "attributionClass" then isStrArr v
  else if k = "forSale" then isVBool v
  else false

/-- Non-emptiness of one field value in the sense of the data model's
invariant: a non-empty string, a non-empty sequence, or a defined boolean. -/
def nonEmptyField : JSValue → Bool
  | .vStr s => s ≠ ""
  | .vArr l => !l.isEmpty
  | .vBool _ => true
  | _ => false

/-- Validity of a FilterSpec handed to the query builder: every field is a
recognized, well-typed filter, and at least one field is non-empty. -/
def ValidFilterSpec (r : Record) : Bool :=
  r.all (fun e => wellTypedField e.1 e.2) && r.any (fun e => nonEmptyField e.2)

/-- Absence of backslashes in a string element (non-strings pass). -/
def strNoBackslash : JSValue → Bool
  | .vStr s => !(s.data.contains '\\')
  | _ => true

/-- Absence of backslashes in one field value's strings (including the
string elements of sequence values). -/
def valueNoBackslash : JSValue → Bool
  | .vStr s => !(s.data.contains '\\')
  | .vArr l => l.all strNoBackslash
  | _ => true

/-- Absence of backslashes in every string value of a FilterSpec. -/
def noBackslashValues (r : Record) : Bool :=
  r.all (fun e => valueNoBackslash e.2)

/-- The parameter list of the compiled query declares the `$after` cursor
variable. -/
def AfterVarDeclared (after : Option String) : Prop :=
  (", $after: String").data <:+: (queryDefinition after).data

/-- The connection-arguments clause of the compiled query includes the
`after` argument. -/
def AfterArgIncluded (params : Record) (after : Option String) : Prop :=
  (", after: $after").data <:+ (connectionArgs params after).data

/-!  Concrete fixtures used by witnesses and counterexamples. -/

/-- Configuration with every credential present. -/
def cfgAll : Config :=
  { googleApiKey := some "g-key", artsyAccessToken := some "a-token",
    artsyUserId := some "a-user", artsyApiUrl := some "https://metaphysics.artsy.net" }

/-- Catalog response: 200 with an empty JSON object body. -/
def respEmptyOk : FetchResponse :=
  { ok := true, status := 200, statusText := "OK", body := .jObj [] }

/-- Well-formed POST request carrying only a query. -/
def reqMonet : ApiRequest :=
  { method := "POST", body := .jObj [("query", .jStr "monet")] }

set_option maxRecDepth 8192

/-- C10: a request whose method is not POST is answered with status 405, an
`Allow: POST` header and an error message, and no external call is made. -/
theorem c10_non_post_rejected (cfg : Config) (mr : ModelResult)
    (fresp : FetchResponse) (req : ApiRequest) (h : req.method ≠ "POST") :
    handler cfg mr fresp req =
      ([], { status := 405, allowHeader := some ["POST"],
             body := .jObj [("error", .jStr ("Method " ++ req.method ++ " Not Allowed"))] }) := by
  unfold handler
  rw [if_pos h]

/-- Witness for C10 at the concrete method GET. -/
theorem c10_witness :
    ({ method := "GET", body := .jObj [] } : ApiRequest).method ≠ "POST" ∧
    handler cfgAll .errored respEmptyOk { method := "GET", body := .jObj [] } =
      ([], { status := 405, allowHeader := some ["POST"],
             body := .jObj [("error", .jStr "Method GET Not Allowed")] }) :=
  ⟨by decide,
   c10_non_post_rejected cfgAll .errored respEmptyOk
     { method := "GET", body := .jObj [] } (by decide)⟩

/-- C6: whenever the model call errors, returns no callable result, or
returns an unrecognized tool name (`extractionFailed`), the sanitized
FilterSpec is exactly `{ keyword: originalQueryText }`, produced as a
normal (`Except.ok`) value — the failure never escapes to the caller. -/
theorem c6_extraction_failed_fallback (cfg : Config) (query : String)
    (mr : ModelResult) (hkey : envTruthy cfg.googleApiKey = true)
    (hfail : extractionFailed mr = true) :
    convertNaturalLanguageToArtsyParams cfg query mr
      = ([.modelCall], .ok [("keyword", .vStr query)]) := by
  unfold convertNaturalLanguageToArtsyParams
  rw [hkey]
  cases mr with
  | errored => rfl
  | returned fc =>
    match fc with
    | none => rfl
    | some [] => rfl
    | some (c :: rest) =>
      simp only [extractionFailed, ne_eq, decide_eq_true_eq] at hfail
      simp [hfail]

/-- Witness for C6 at a concrete unrecognized tool name. -/
theorem c6_witness :
    envTruthy cfgAll.googleApiKey = true ∧
    extractionFailed (.returned (some [⟨"someOtherTool", [("keyword", .vStr "cats")]⟩])) = true ∧
    convertNaturalLanguageToArtsyParams cfgAll "red paintings"
        (.returned (some [⟨"someOtherTool", [("keyword", .vStr "cats")]⟩]))
      = ([.modelCall], .ok [("keyword", .vStr "red paintings")]) :=
  ⟨rfl, rfl,
   c6_extraction_failed_fallback cfgAll "red paintings"
     (.returned (some [⟨"someOtherTool", [("keyword", .vStr "cats")]⟩])) rfl rfl⟩

/-- Every value kept by the cleaning loop also passes the per-value test of
the effectively-empty fallback check, so a non-empty cleaned record never
triggers the full fallback. -/
theorem someTestNonEmpty_of_keepInClean :
    ∀ {v : JSValue}, keepInClean v = true → someTestNonEmpty v = true
  | .vStr s, h => by
    simp only [keepInClean, Bool.not_eq_true', beq_eq_false_iff_ne, ne_eq] at h
    simp only [someTestNonEmpty, ne_eq, decide_eq_true_eq]
    intro hs
    exact h (by rw [hs]; rfl)
  | .vBool _, _ => rfl
  | .vNum _, _ => rfl
  | .vArr l, h => by
    cases l with
    | nil => simp [keepInClean] at h
    | cons a t => simp [someTestNonEmpty]
  | .vNull, h => by simp [keepInClean] at h
  | .vUndefined, h => by simp [keepInClean] at h

/-- Every entry of the cleaned record was kept by the cleaning filter. -/
theorem keepInClean_of_mem_cleanArgs {args : Record} {e : String × JSValue}
    (h : e ∈ cleanArgs args) : keepInClean e.2 = true := by
  simp only [cleanArgs] at h
  exact (List.mem_filter.mp h).2

/-- A non-empty cleaned record always passes the `some` test of the
effectively-empty fallback check. -/
theorem cleanArgs_any_someTest (args : Record) (h : cleanArgs args ≠ []) :
    (cleanArgs args).any (fun e => someTestNonEmpty e.2) = true := by
  cases hc : cleanArgs args with
  | nil => exact absurd hc h
  | cons e t =>
    have hm : e ∈ cleanArgs args := by rw [hc]; exact List.mem_cons_self e t
    have hk := keepInClean_of_mem_cleanArgs hm
    simp [someTestNonEmpty_of_keepInClean hk]

/-- Assigning a key that is absent from the record appends it. -/
theorem rset_of_lookup_none (r : Record) (k : String) (v : JSValue)
    (h : r.lookup k = none) : rset r k v = r ++ [(k, v)] := by
  unfold rset
  rw [h]
  rfl

/-- Core of C7: when none of the primary fields survived cleaning, the
sanitizer appends `keyword = query` and keeps every surviving (secondary)
field unchanged. -/
theorem processArgs_no_primary (query : String) (args : Record)
    (h1 : (cleanArgs args).lookup "keyword" = none)
    (h2 : (cleanArgs args).lookup "artistIDs" = none)
    (h3 : (cleanArgs args).lookup "medium" = none)
    (h4 : (cleanArgs args).lookup "color" = none) :
    processArgs query args = cleanArgs args ++ [("keyword", .vStr query)] := by
  unfold processArgs
  have hr1 : rtruthy (cleanArgs args) "keyword" = false := by unfold rtruthy; rw [h1]
  have hr2 : rtruthy (cleanArgs args) "artistIDs" = false := by unfold rtruthy; rw [h2]
  have hr3 : rtruthy (cleanArgs args) "medium" = false := by unfold rtruthy; rw [h3]
  have hr4 : rtruthy (cleanArgs args) "color" = false := by unfold rtruthy; rw [h4]
  cases hc : cleanArgs args with
  | nil => simp
  | cons e t =>
    have hany := cleanArgs_any_someTest args (by rw [hc]; simp)
    rw [hc] at hany hr1 hr2 hr3 hr4 h1
    simp only [hc, List.isEmpty_cons, hany, hr1, hr2, hr3, hr4, Bool.not_true,
      Bool.not_false, Bool.false_or, Bool.and_self, if_false, if_true,
      Bool.false_eq_true, ite_false, ite_true]
    exact rset_of_lookup_none (e :: t) "keyword" (.vStr query) h1

/-- C7: for extracted arguments whose surviving fields include none of the
primary fields `keyword`, `artistIDs`, `medium`, `color`, the sanitizer
injects `keyword = rawQueryText` and keeps the surviving secondary fields
unchanged in the output FilterSpec. -/
theorem c7_secondary_only_keyword_injected (cfg : Config) (query : String)
    (args : Record) (rest : List FunCall)
    (hkey : envTruthy cfg.googleApiKey = true)
    (h1 : (cleanArgs args).lookup "keyword" = none)
    (h2 : (cleanArgs args).lookup "artistIDs" = none)
    (h3 : (cleanArgs args).lookup "medium" = none)
    (h4 : (cleanArgs args).lookup "color" = none) :
    convertNaturalLanguageToArtsyParams cfg query
        (.returned (some (⟨"searchArtsyArtworks", args⟩ :: rest)))
      = ([.modelCall], .ok (cleanArgs args ++ [("keyword", .vStr query)])) := by
  unfold convertNaturalLanguageToArtsyParams
  rw [hkey]
  simp only [Bool.not_true, Bool.false_eq_true, if_false, beq_self_eq_true, if_true,
    ite_true, ite_false]
  rw [processArgs_no_primary query args h1 h2 h3 h4]

/-- Witness for C7: a surviving `forSale` and `priceRange` with a
trim-empty extracted keyword. -/
theorem c7_witness :
    envTruthy cfgAll.googleApiKey = true ∧
    (cleanArgs [("forSale", .vBool true), ("keyword", .vStr "   "), ("priceRange", .vStr "*-1000")]).lookup "keyword" = none ∧
    convertNaturalLanguageToArtsyParams cfgAll "cheap art"
        (.returned (some [⟨"searchArtsyArtworks",
          [("forSale", .vBool true), ("keyword", .vStr "   "), ("priceRange", .vStr "*-1000")]⟩]))
      = ([.modelCall], .ok [("forSale", .vBool true), ("priceRange", .vStr "*-1000"),
                            ("keyword", .vStr "cheap art")]) :=
  ⟨rfl, rfl,
   c7_secondary_only_keyword_injected cfgAll "cheap art"
     [("forSale", .vBool true), ("keyword", .vStr "   "), ("priceRange", .vStr "*-1000")]
     [] rfl rfl rfl rfl rfl⟩

/-- Catalog response refuting C8 as stated: transport status 200 and a body
that lacks `data.artworksConnection`, but also carries a GraphQL `errors`
collection. -/
def respErrorsNoData : FetchResponse :=
  { ok := true, status := 200, statusText := "OK",
    body := .jObj [("errors", .jArr [.jStr "boom"]), ("data", .jNull)] }

/-- Counterexample to C8 as stated: a 200 response whose decoded body lacks
`data.artworksConnection` (so the claim demands the canonical empty shape)
is nevertheless failed with the protocol error, because the source checks
`result.errors` before the missing-substructure recovery. -/
theorem c8_counterexample :
    connectionMissing respErrorsNoData.body = true ∧
    normalizeArtsyResponse respErrorsNoData
      = .error (.protocolError (.jArr [.jStr "boom"])) :=
  ⟨rfl, rfl⟩

/-- A 200 response whose decoded body is the JSON value `null` lacks the
expected substructure too, but the normalizer does not recover it: the
property read `result.errors` of line 291 throws a TypeError, which the
handler surfaces as a 500.  This is why the recovery theorems below require
a non-null body. -/
theorem normalize_null_body_throws :
    normalizeArtsyResponse { ok := true, status := 200, statusText := "OK", body := .jNull }
      = .error (.typeError "Cannot read properties of null (reading 'errors')") := rfl

/-- C8 as amended: a 200 response whose decoded body is a non-null JSON
value that carries no (truthy) `errors` collection and lacks `data` or
`data.artworksConnection` is not an error — the normalizer returns the
canonical empty shape.  (A decoded body of JSON `null` instead throws a
TypeError at the `result.errors` read, surfaced as a 500.) -/
theorem c8_shape_anomaly_recovered (resp : FetchResponse)
    (hok : resp.ok = true)
    (hnn : isJNull resp.body = false)
    (herr : jgetTruthy resp.body "errors" = false)
    (hmiss : connectionMissing resp.body = true) :
    normalizeArtsyResponse resp = .ok canonicalEmpty := by
  unfold normalizeArtsyResponse
  unfold connectionMissing at hmiss
  rw [hok, hnn, herr, hmiss]
  rfl

/-- Witness for C8 at a concrete 200 response whose body is `{}`. -/
theorem c8_witness :
    respEmptyOk.ok = true ∧
    isJNull respEmptyOk.body = false ∧
    jgetTruthy respEmptyOk.body "errors" = false ∧
    connectionMissing respEmptyOk.body = true ∧
    normalizeArtsyResponse respEmptyOk = .ok canonicalEmpty :=
  ⟨rfl, rfl, rfl, rfl, c8_shape_anomaly_recovered respEmptyOk rfl rfl rfl rfl⟩

/-- Catalog response refuting C1 as stated: 200, no errors, and an
`artworksConnection` present but with no `pageInfo` member at all. -/
def respConnNoPageInfo : FetchResponse :=
  { ok := true, status := 200, statusText := "OK",
    body := .jObj [("data", .jObj [("artworksConnection", .jObj [("edges", .jArr [])])])] }

/-- Counterexample to C1 as stated: when the upstream body contains
`artworksConnection` but omits `pageInfo`, the success path passes
`result.data` through unchanged, so the returned result has no complete
`pageInfo` object. -/
theorem c1_counterexample :
    normalizeArtsyResponse respConnNoPageInfo
      = .ok (.jObj [("artworksConnection", .jObj [("edges", .jArr [])])]) ∧
    pageInfoComplete (.jObj [("artworksConnection", .jObj [("edges", .jArr [])])]) = false :=
  ⟨rfl, rfl⟩

/-- C1 as amended: on the success path with a non-null decoded body and no
protocol errors, the normalizer guarantees a `pageInfo` object with both
fields defined exactly when the upstream body lacks the
`data.artworksConnection` substructure (the canonical empty shape is
produced); when the substructure is present the data is passed through
unchanged, so `pageInfo` completeness is whatever the upstream supplied —
missing fields are not defaulted.  (A decoded body of JSON `null` instead
throws a TypeError at the `result.errors` read, surfaced as a 500, so no
result is produced at all.) -/
theorem c1_pageinfo_behaviour (resp : FetchResponse)
    (hok : resp.ok = true)
    (hnn : isJNull resp.body = false)
    (herr : jgetTruthy resp.body "errors" = false) :
    (connectionMissing resp.body = true →
      normalizeArtsyResponse resp = .ok canonicalEmpty ∧
      pageInfoComplete canonicalEmpty = true) ∧
    (connectionMissing resp.body = false →
      normalizeArtsyResponse resp = .ok ((jget resp.body "data").getD .jNull)) := by
  constructor
  · intro hmiss
    refine ⟨?_, rfl⟩
    unfold normalizeArtsyResponse
    unfold connectionMissing at hmiss
    rw [hok, hnn, herr, hmiss]
    rfl
  · intro hpres
    unfold normalizeArtsyResponse
    unfold connectionMissing at hpres
    rw [hok, hnn, herr, hpres]
    rfl

/-- Witness for C1 at a concrete 200 response whose body is `{}`: the
substructure is missing and the canonical empty shape carries a complete
`pageInfo`. -/
theorem c1_witness :
    respEmptyOk.ok = true ∧
    isJNull respEmptyOk.body = false ∧
    jgetTruthy respEmptyOk.body "errors" = false ∧
    connectionMissing respEmptyOk.body = true ∧
    (normalizeArtsyResponse respEmptyOk = .ok canonicalEmpty ∧
     pageInfoComplete canonicalEmpty = true) :=
  ⟨rfl, rfl, rfl, rfl, (c1_pageinfo_behaviour respEmptyOk rfl rfl rfl).1 rfl⟩

/-- C9: a 200 response whose decoded body carries a GraphQL `errors`
collection makes the normalizer fail with the protocol error, and the
handler surfaces that failure to the caller as a 500 error response rather
than absorbing it. -/
theorem c9_protocol_errors_surfaced (cfg : Config) (mr : ModelResult)
    (fresp : FetchResponse) (req : ApiRequest) (es : List JSON)
    (hm : req.method = "POST") (hnull : isJNull req.body = false)
    (hq : queryFieldInvalid req.body = false)
    (ha : afterFieldInvalid req.body = false)
    (hg : envTruthy cfg.googleApiKey = true)
    (ht : envTruthy cfg.artsyAccessToken = true)
    (hu : envTruthy cfg.artsyApiUrl = true)
    (hok : fresp.ok = true)
    (herr : jget fresp.body "errors" = some (.jArr es)) :
    normalizeArtsyResponse fresp = .error (.protocolError (.jArr es)) ∧
    handler cfg mr fresp req
      = ([.modelCall, .catalogCall], errResp500 (.protocolError (.jArr es))) := by
  have hnn : isJNull fresp.body = false := by
    cases hb : fresp.body with
    | jNull =>
      rw [hb] at herr
      exact absurd herr (by simp [jget])
    | jBool b => rfl
    | jNum n => rfl
    | jStr s => rfl
    | jArr l => rfl
    | jObj l => rfl
  have hnorm : normalizeArtsyResponse fresp = .error (.protocolError (.jArr es)) := by
    unfold normalizeArtsyResponse jgetTruthy
    rw [hok, hnn, herr]
    rfl
  refine ⟨hnorm, ?_⟩
  unfold handler
  rw [if_neg (by rw [hm]; exact fun h => h rfl), if_neg (by rw [hnull]; exact Bool.false_ne_true),
    if_neg (by rw [hq]; exact Bool.false_ne_true), if_neg (by rw [ha]; exact Bool.false_ne_true)]
  unfold convertNaturalLanguageToArtsyParams
  rw [hg]
  unfold queryArtsy
  rw [ht, hu]
  simp only [Bool.not_true, Bool.or_self, Bool.false_eq_true, if_false, hnorm]
  rfl

/-- Witness for C9 at the concrete erroring 200 response. -/
theorem c9_witness :
    respErrorsNoData.ok = true ∧
    jget respErrorsNoData.body "errors" = some (.jArr [.jStr "boom"]) ∧
    (normalizeArtsyResponse respErrorsNoData
        = .error (.protocolError (.jArr [.jStr "boom"])) ∧
     handler cfgAll .errored respErrorsNoData reqMonet
        = ([.modelCall, .catalogCall],
           errResp500 (.protocolError (.jArr [.jStr "boom"])))) :=
  ⟨rfl, rfl,
   c9_protocol_errors_surfaced cfgAll .errored respErrorsNoData reqMonet
     [.jStr "boom"] rfl rfl rfl rfl rfl rfl rfl rfl rfl⟩

/-- Request refuting C4 as stated: `after` is present and is not a string,
but its value `0` is falsy. -/
def reqAfterZero : ApiRequest :=
  { method := "POST", body := .jObj [("query", .jStr "monet"), ("after", .jNum 0)] }

/-- Counterexample to C4 as stated: with `after: 0` — present and not a
string — the handler does not return a validation error; it proceeds to
make both external calls and answers 200, because the guard
`after && typeof after !== "string"` skips every falsy `after`. -/
theorem c4_counterexample :
    jget reqAfterZero.body "after" = some (.jNum 0) ∧
    (handler cfgAll .errored respEmptyOk reqAfterZero).1 = [.modelCall, .catalogCall] ∧
    (handler cfgAll .errored respEmptyOk reqAfterZero).2.status = 200 :=
  ⟨rfl, rfl, rfl⟩

/-- C4 as amended: an invalid `query` (absent, falsy, non-string, or
trim-empty) is answered 400 with no external calls; an `after` that is
present, truthy and not a string is answered 400 with no external calls.
(A falsy non-string `after` such as `0`, `false` or `null` is treated as
absent instead.) -/
theorem c4_input_validation (cfg : Config) (mr : ModelResult)
    (fresp : FetchResponse) (req : ApiRequest)
    (hm : req.method = "POST") (hnull : isJNull req.body = false) :
    (queryFieldInvalid req.body = true →
      handler cfg mr fresp req
        = ([], { status := 400, allowHeader := none,
                 body := .jObj [("error", .jStr "Invalid or empty query provided")] })) ∧
    (queryFieldInvalid req.body = false → afterFieldInvalid req.body = true →
      handler cfg mr fresp req
        = ([], { status := 400, allowHeader := none,
                 body := .jObj [("error", .jStr "Invalid 'after' cursor provided")] })) := by
  constructor
  · intro hq
    unfold handler
    rw [if_neg (by rw [hm]; exact fun h => h rfl),
      if_neg (by rw [hnull]; exact Bool.false_ne_true), if_pos hq]
  · intro hq ha
    unfold handler
    rw [if_neg (by rw [hm]; exact fun h => h rfl),
      if_neg (by rw [hnull]; exact Bool.false_ne_true),
      if_neg (by rw [hq]; exact Bool.false_ne_true), if_pos ha]

/-- Request with no `query` field at all. -/
def reqNoQuery : ApiRequest := { method := "POST", body := .jObj [] }

/-- Request with a truthy non-string `after`. -/
def reqAfterTrue : ApiRequest :=
  { method := "POST", body := .jObj [("query", .jStr "monet"), ("after", .jBool true)] }

/-- Witness for C4 exercising both amended branches at concrete requests. -/
theorem c4_witness :
    queryFieldInvalid reqNoQuery.body = true ∧
    handler cfgAll .errored respEmptyOk reqNoQuery
      = ([], { status := 400, allowHeader := none,
               body := .jObj [("error", .jStr "Invalid or empty query provided")] }) ∧
    afterFieldInvalid reqAfterTrue.body = true ∧
    handler cfgAll .errored respEmptyOk reqAfterTrue
      = ([], { status := 400, allowHeader := none,
               body := .jObj [("error", .jStr "Invalid 'after' cursor provided")] }) :=
  ⟨rfl,
   (c4_input_validation cfgAll .errored respEmptyOk reqNoQuery rfl rfl).1 rfl,
   rfl,
   (c4_input_validation cfgAll .errored respEmptyOk reqAfterTrue rfl rfl).2 rfl rfl⟩

/-- Configuration missing the catalog access token but carrying the model
key and the endpoint URL. -/
def cfgNoToken : Config :=
  { googleApiKey := some "g-key", artsyAccessToken := none,
    artsyUserId := some "a-user", artsyApiUrl := some "https://metaphysics.artsy.net" }

/-- Counterexample to C5 as stated: with the catalog access token absent, a
ConfigurationError is surfaced as a 500 — but only after the model external
call has already been made, so the failure is not raised before any
external call. -/
theorem c5_counterexample :
    envTruthy cfgNoToken.artsyAccessToken = false ∧
    handler cfgNoToken .errored respEmptyOk reqMonet
      = ([.modelCall], errResp500 (.configError "Artsy API token or URL is not defined")) ∧
    ([ExtCall.modelCall] : List ExtCall) ≠ [] :=
  ⟨rfl, rfl, by decide⟩

/-- C5 as amended: a missing (or empty) model API key is surfaced as a 500
ConfigurationError before any external call; a missing catalog access token
or endpoint URL is surfaced as a 500 ConfigurationError before the catalog
call, but only after the model call has been made.  (The catalog user-id
credential is read but never checked.) -/
theorem c5_config_errors (cfg : Config) (mr : ModelResult)
    (fresp : FetchResponse) (req : ApiRequest)
    (hm : req.method = "POST") (hnull : isJNull req.body = false)
    (hq : queryFieldInvalid req.body = false)
    (ha : afterFieldInvalid req.body = false) :
    (envTruthy cfg.googleApiKey = false →
      handler cfg mr fresp req
        = ([], errResp500 (.configError "API key is not defined"))) ∧
    (envTruthy cfg.googleApiKey = true →
      (envTruthy cfg.artsyAccessToken = false ∨ envTruthy cfg.artsyApiUrl = false) →
      handler cfg mr fresp req
        = ([.modelCall], errResp500 (.configError "Artsy API token or URL is not defined"))) := by
  constructor
  · intro hg
    unfold handler
    rw [if_neg (by rw [hm]; exact fun h => h rfl),
      if_neg (by rw [hnull]; exact Bool.false_ne_true),
      if_neg (by rw [hq]; exact Bool.false_ne_true),
      if_neg (by rw [ha]; exact Bool.false_ne_true)]
    unfold convertNaturalLanguageToArtsyParams
    rw [hg]
    rfl
  · intro hg hcat
    unfold handler
    rw [if_neg (by rw [hm]; exact fun h => h rfl),
      if_neg (by rw [hnull]; exact Bool.false_ne_true),
      if_neg (by rw [hq]; exact Bool.false_ne_true),
      if_neg (by rw [ha]; exact Bool.false_ne_true)]
    unfold convertNaturalLanguageToArtsyParams
    rw [hg]
    unfold queryArtsy
    rcases hcat with hc | hc
    · rw [hc]
      rfl
    · rw [hc]
      simp

/-- Character-list content of a string concatenation. -/
theorem string_data_append (a b : String) : (a ++ b).data = a.data ++ b.data := by
  cases a; cases b; rfl

/-- Character-list content of a string concatenated with the empty string. -/
theorem string_data_append_empty (a : String) : (a ++ "").data = a.data := by
  cases a; simp [String.data]

/-- Last element of a list that ends in a given non-empty suffix. -/
theorem getLast?_of_suffix {t l : List Char} (h : t <:+ l) (hne : t ≠ []) :
    l.getLast? = t.getLast? := by
  obtain ⟨u, rfl⟩ := h
  rw [List.getLast?_append]
  cases ht : t.getLast? with
  | none => exact absurd (List.getLast?_eq_none_iff.mp ht) hne
  | some c => rfl

/-- Admissible final characters of a serialized filter clause: a quote (from
a string value), a closing bracket (from an array value), or the `e` ending
`true`/`false` (from a boolean value). -/
def lastCharOk (s : String) : Prop :=
  s.data.getLast? = some '"' ∨ s.data.getLast? = some ']' ∨ s.data.getLast? = some 'e'

/-- Every well-typed FilterSpec value has one of the three value shapes. -/
theorem shape_of_wellTyped {k : String} {v : JSValue}
    (h : wellTypedField k v = true) :
    isVStr v = true ∨ isStrArr v = true ∨ isVBool v = true := by
  unfold wellTypedField at h
  split at h
  · exact Or.inl h
  · split at h
    · exact Or.inr (Or.inl h)
    · split at h
      · exact Or.inr (Or.inr h)
      · exact absurd h (by simp)

/-- Every well-typed FilterSpec key is one of the eight recognized names. -/
theorem key_of_wellTyped {k : String} {v : JSValue}
    (h : wellTypedField k v = true) :
    k = "keyword" ∨ k = "medium" ∨ k = "color" ∨ k = "priceRange" ∨
    k = "artistIDs" ∨ k = "partnerIDs" ∨ k = "attributionClass" ∨ k = "forSale" := by
  unfold wellTypedField at h
  split at h
  · next hc => tauto
  · split at h
    · next hc => tauto
    · split at h
      · next hc => tauto
      · exact absurd h (by simp)

/-- Serialized values of the three admissible shapes end in an admissible
character. -/
theorem graphQLValue_lastCharOk {v : JSValue}
    (h : isVStr v = true ∨ isStrArr v = true ∨ isVBool v = true) :
    lastCharOk (graphQLValue v) := by
  cases v with
  | vStr s =>
    left
    show ((("\"" ++ escapeQuotes s) ++ "\"").data.getLast? = some '"')
    rw [string_data_append]
    exact List.getLast?_concat _
  | vArr l =>
    right; left
    show ((("[" ++ joinSep ", " (l.map arrayElemString)) ++ "]").data.getLast? = some ']')
    rw [string_data_append]
    exact List.getLast?_concat _
  | vBool b =>
    right; right
    cases b <;> rfl
  | vNum n => rcases h with h | h | h <;> simp [isVStr, isStrArr, isVBool] at h
  | vNull => rcases h with h | h | h <;> simp [isVStr, isStrArr, isVBool] at h
  | vUndefined => rcases h with h | h | h <;> simp [isVStr, isStrArr, isVBool] at h

/-- A full `key: value` clause ends in the value's final character. -/
theorem clause_lastCharOk {k : String} {v : JSValue}
    (h : isVStr v = true ∨ isStrArr v = true ∨ isVBool v = true) :
    lastCharOk (k ++ ": " ++ graphQLValue v) := by
  have hv := graphQLValue_lastCharOk h
  unfold lastCharOk at hv ⊢
  rw [string_data_append, List.getLast?_append]
  rcases hv with hv | hv | hv <;> rw [hv]
  · exact Or.inl rfl
  · exact Or.inr (Or.inl rfl)
  · exact Or.inr (Or.inr rfl)

/-- A `", "`-join of clauses that all end admissibly ends admissibly. -/
theorem joinSep_lastCharOk :
    ∀ (l : List String), l ≠ [] → (∀ s ∈ l, lastCharOk s) →
      lastCharOk (joinSep ", " l)
  | [], h, _ => absurd rfl h
  | [s], _, hall => by simpa [joinSep] using hall s (by simp)
  | s :: s' :: rest, _, hall => by
    have ih := joinSep_lastCharOk (s' :: rest) (by simp)
      (fun x hx => hall x (List.mem_cons_of_mem s hx))
    show lastCharOk ((s ++ ", ") ++ joinSep ", " (s' :: rest))
    unfold lastCharOk at ih ⊢
    rw [string_data_append, List.getLast?_append]
    rcases ih with h | h | h <;> rw [h]
    · exact Or.inl rfl
    · exact Or.inr (Or.inl rfl)
    · exact Or.inr (Or.inr rfl)

/-- The serialized filter arguments of a well-typed FilterSpec are either
empty or end in an admissible character — never in the `r` that would be
needed for the clause to end in `, after: $after`. -/
theorem filterArgs_lastChar (params : Record)
    (hwt : params.all (fun e => wellTypedField e.1 e.2) = true) :
    filterArgs params = "" ∨ lastCharOk (filterArgs params) := by
  unfold filterArgs
  cases hcl : params.filterMap (fun e =>
      if droppedInFilter e.2 then none
      else some (e.1 ++ ": " ++ graphQLValue e.2)) with
  | nil => exact Or.inl rfl
  | cons c rest =>
    right
    apply joinSep_lastCharOk _ (by simp)
    intro s hs
    rw [← hcl] at hs
    obtain ⟨e, he, hfe⟩ := List.mem_filterMap.mp hs
    have hwte : wellTypedField e.1 e.2 = true := by
      have := List.all_eq_true.mp hwt e he
      simpa using this
    by_cases hd : droppedInFilter e.2 = true
    · rw [if_pos hd] at hfe
      exact absurd hfe (by simp)
    · rw [if_neg hd] at hfe
      cases hfe
      exact clause_lastCharOk (shape_of_wellTyped hwte)

/-- Positive direction for the connection arguments: a truthy cursor makes
`, after: $after` a suffix of the clause. -/
theorem afterArg_of_cursor (params : Record) (after : Option String)
    (haf : afterTruthy after = true) : AfterArgIncluded params after := by
  unfold AfterArgIncluded
  have hdata : (connectionArgs params after).data
      = ("first: $size, " ++ filterArgs params).data ++ (", after: $after").data := by
    unfold connectionArgs
    rw [haf]
    exact string_data_append _ _
  rw [hdata]
  exact List.suffix_append _ _

/-- Negative direction for the connection arguments: without a truthy
cursor, the clause of a well-typed FilterSpec cannot end in `, after: $after`. -/
theorem not_afterArg_of_no_cursor (params : Record)
    (hwt : params.all (fun e => wellTypedField e.1 e.2) = true)
    (after : Option String) (haf : afterTruthy after = false) :
    ¬ AfterArgIncluded params after := by
  intro hsuf
  unfold AfterArgIncluded at hsuf
  have hdata : (connectionArgs params after).data
      = ("first: $size, " ++ filterArgs params).data := by
    unfold connectionArgs
    rw [haf]
    exact string_data_append_empty _
  have h1 : (connectionArgs params after).data.getLast? = some 'r' := by
    rw [getLast?_of_suffix hsuf (by simp)]
    rfl
  rw [hdata, string_data_append, List.getLast?_append] at h1
  rcases filterArgs_lastChar params hwt with hf | hf
  · rw [hf] at h1
    simp at h1
  · unfold lastCharOk at hf
    rcases hf with hf | hf | hf <;> rw [hf] at h1 <;> simp at h1

/-- The cursor variable is declared in the parameter list exactly when the
cursor is truthy. -/
theorem afterVar_iff (after : Option String) :
    AfterVarDeclared after ↔ afterTruthy after = true := by
  unfold AfterVarDeclared
  cases haf : afterTruthy after with
  | true =>
    have h : queryDefinition after = "query SearchArtworks($size: Int, $after: String)" := by
      unfold queryDefinition
      rw [haf]
      rfl
    rw [h]
    exact ⟨fun _ => rfl, fun _ => by decide⟩
  | false =>
    have h : queryDefinition after = "query SearchArtworks($size: Int)" := by
      unfold queryDefinition
      rw [haf]
      rfl
    rw [h]
    exact ⟨fun hc => absurd hc (by decide), fun hc => absurd hc (by decide)⟩

/-- Scanning distributes over concatenation of character lists. -/
theorem scanChars_append (st : LexState) (a b : List Char) :
    scanChars st (a ++ b) = scanChars (scanChars st a) b :=
  List.foldl_append stepChar st a b

/-- Scanning the quote-escaped image of a backslash-free body keeps the
lexer inside the string literal. -/
theorem scanChars_escQuote (cs : List Char) (h : ∀ c ∈ cs, c ≠ '\\') :
    scanChars .inString (escQuote cs) = .inString := by
  induction cs with
  | nil => rfl
  | cons c rest ih =>
    have ih' := ih (fun x hx => h x (List.mem_cons_of_mem c hx))
    by_cases hq : c = '"'
    · subst hq
      have he : escQuote ('"' :: rest) = '\\' :: '"' :: escQuote rest := rfl
      rw [he]
      exact ih'
    · have hb : c ≠ '\\' := h c (by simp)
      have he : escQuote (c :: rest) = c :: escQuote rest := by
        simp only [escQuote]
        rw [if_neg hq]
      rw [he]
      show scanChars (stepChar .inString c) (escQuote rest) = .inString
      rw [show stepChar .inString c = .inString from by simp [stepChar, hq, hb]]
      exact ih'

/-- Scanning a serialized backslash-free string value: the literal opens,
the escaped body stays inside, and the closing quote leaves the literal. -/
theorem scan_string_literal (s : String) (h : ∀ c ∈ s.data, c ≠ '\\') :
    scanChars .outside (("\"" ++ escapeQuotes s) ++ "\"").data = .outside := by
  rw [string_data_append, scanChars_append, string_data_append, scanChars_append]
  rw [show scanChars .outside ("\"").data = .inString from rfl]
  rw [show scanChars .inString (escapeQuotes s).data = .inString from scanChars_escQuote s.data h]
  rfl

/-- Backslash-freedom of a string value, in membership form. -/
theorem no_backslash_mem {s : String} (hb : (s.data.contains '\\') = false) :
    ∀ c ∈ s.data, c ≠ '\\' := by
  intro c hc hceq
  subst hceq
  have ht : s.data.contains '\\' = true := List.elem_eq_true_of_mem hc
  rw [ht] at hb
  exact Bool.noConfusion hb

/-- Scanning a `", "`-join of pieces that each scan to outside ends outside. -/
theorem scan_joinSep_outside :
    ∀ (l : List String), (∀ s ∈ l, scanChars .outside s.data = .outside) →
      scanChars .outside (joinSep ", " l).data = .outside
  | [], _ => rfl
  | [s], hall => hall s (by simp)
  | s :: s' :: rest, hall => by
    show scanChars .outside ((s ++ ", ") ++ joinSep ", " (s' :: rest)).data = .outside
    rw [string_data_append, scanChars_append, string_data_append, scanChars_append]
    rw [hall s (by simp)]
    rw [show scanChars .outside (", ").data = .outside from rfl]
    exact scan_joinSep_outside (s' :: rest) (fun x hx => hall x (List.mem_cons_of_mem s hx))

/-- Scanning the serialization of a well-shaped, backslash-free value ends
outside every string literal. -/
theorem scan_graphQLValue {v : JSValue}
    (hs : isVStr v = true ∨ isStrArr v = true ∨ isVBool v = true)
    (hb : valueNoBackslash v = true) :
    scanChars .outside (graphQLValue v).data = .outside := by
  cases v with
  | vStr s =>
    have hb' : (s.data.contains '\\') = false := by
      simpa [valueNoBackslash] using hb
    exact scan_string_literal s (no_backslash_mem hb')
  | vArr l =>
    have hstr : l.all isVStr = true := by
      rcases hs with hs | hs | hs
      · simp [isVStr] at hs
      · simpa [isStrArr] using hs
      · simp [isVBool] at hs
    show scanChars .outside
      ((("[" ++ joinSep ", " (l.map arrayElemString)) ++ "]").data) = .outside
    rw [string_data_append, scanChars_append, string_data_append, scanChars_append]
    rw [show scanChars .outside ("[").data = .outside from rfl]
    rw [scan_joinSep_outside (l.map arrayElemString) ?_]
    · rfl
    · intro s hsm
      obtain ⟨v, hvl, rfl⟩ := List.mem_map.mp hsm
      have hvs : isVStr v = true := List.all_eq_true.mp hstr v hvl
      have hbl : l.all strNoBackslash = true := hb
      cases v with
      | vStr sv =>
        have hbv : (sv.data.contains '\\') = false := by
          have := List.all_eq_true.mp hbl (JSValue.vStr sv) hvl
          simpa [strNoBackslash] using this
        exact scan_string_literal sv (no_backslash_mem hbv)
      | vBool b => simp [isVStr] at hvs
      | vNum n => simp [isVStr] at hvs
      | vArr l2 => simp [isVStr] at hvs
      | vNull => simp [isVStr] at hvs
      | vUndefined => simp [isVStr] at hvs
  | vBool b => cases b <;> rfl
  | vNum n => rcases hs with hs | hs | hs <;> simp [isVStr, isStrArr, isVBool] at hs
  | vNull => rcases hs with hs | hs | hs <;> simp [isVStr, isStrArr, isVBool] at hs
  | vUndefined => rcases hs with hs | hs | hs <;> simp [isVStr, isStrArr, isVBool] at hs

/-- Scanning a full `key: value` clause of a well-typed, backslash-free
entry ends outside every string literal. -/
theorem scan_clause {k : String} {v : JSValue}
    (hwt : wellTypedField k v = true) (hb : valueNoBackslash v = true) :
    scanChars .outside ((k ++ ": ") ++ graphQLValue v).data = .outside := by
  rw [string_data_append, scanChars_append, string_data_append, scanChars_append]
  rw [show scanChars .outside k.data = .outside from ?hk]
  case hk =>
    rcases key_of_wellTyped hwt with h | h | h | h | h | h | h | h <;> subst h <;> rfl
  rw [show scanChars .outside (": ").data = .outside from rfl]
  exact scan_graphQLValue (shape_of_wellTyped hwt) hb

/-- Scanning the serialized filter arguments of a valid, backslash-free
FilterSpec ends outside every string literal. -/
theorem scan_filterArgs (params : Record)
    (hwt : params.all (fun e => wellTypedField e.1 e.2) = true)
    (hnb : noBackslashValues params = true) :
    scanChars .outside (filterArgs params).data = .outside := by
  unfold filterArgs
  apply scan_joinSep_outside
  intro s hs
  obtain ⟨e, he, hfe⟩ := List.mem_filterMap.mp hs
  have hwte : wellTypedField e.1 e.2 = true := by
    have := List.all_eq_true.mp hwt e he
    simpa using this
  have hnbe : valueNoBackslash e.2 = true := by
    have hnb' : params.all (fun e => valueNoBackslash e.2) = true := hnb
    have := List.all_eq_true.mp hnb' e he
    simpa using this
  by_cases hd : droppedInFilter e.2 = true
  · rw [if_pos hd] at hfe
    exact absurd hfe (by simp)
  · rw [if_neg hd] at hfe
    cases hfe
    exact scan_clause hwte hnbe

/-- FilterSpec refuting C2 as stated: a keyword consisting of one backslash
— a character requiring escaping. -/
def cexBackslashParams : Record := [("keyword", .vStr "\\")]

/-- Counterexample to C2 as stated: with a backslash in a string value, the
compiled query text is not syntactically valid — the serializer escapes only
quote characters, so the backslash escapes the value's own closing quote and
the string literal swallows the rest of the query text. -/
theorem c2_counterexample :
    ValidFilterSpec cexBackslashParams = true ∧
    wellFormedStrings (graphqlQueryText cexBackslashParams none) = false := by
  refine ⟨rfl, ?_⟩
  decide

/-- C2 as amended: for every valid FilterSpec whose string values contain no
backslashes, the compiled query text is syntactically valid — every string
value is quoted with its quote characters escaped, so no quote in user input
terminates a string literal early.  (String values containing backslashes
can break this, as the serializer escapes only quotes.) -/
theorem c2_quotes_escaped (params : Record) (after : Option String)
    (hv : ValidFilterSpec params = true)
    (hnb : noBackslashValues params = true) :
    wellFormedStrings (graphqlQueryText params after) = true := by
  have hwt : params.all (fun e => wellTypedField e.1 e.2) = true := by
    unfold ValidFilterSpec at hv
    exact (Bool.and_eq_true _ _).mp hv |>.1
  have hqd : scanChars .outside (queryDefinition after).data = .outside := by
    cases haf : afterTruthy after with
    | true =>
      rw [show queryDefinition after = "query SearchArtworks($size: Int, $after: String)" from
        by unfold queryDefinition; rw [haf]; rfl]
      rfl
    | false =>
      rw [show queryDefinition after = "query SearchArtworks($size: Int)" from
        by unfold queryDefinition; rw [haf]; rfl]
      rfl
  have hconn : scanChars .outside (connectionArgs params after).data = .outside := by
    unfold connectionArgs
    rw [string_data_append, scanChars_append, string_data_append, scanChars_append]
    rw [show scanChars .outside ("first: $size, ").data = .outside from rfl]
    rw [scan_filterArgs params hwt hnb]
    cases haf : afterTruthy after with
    | true => rfl
    | false => rfl
  have hscan : scanChars .outside (graphqlQueryText params after).data = .outside := by
    unfold graphqlQueryText
    rw [string_data_append, scanChars_append, string_data_append, scanChars_append,
      string_data_append, scanChars_append, string_data_append, scanChars_append]
    rw [show scanChars .outside ("\n      ").data = .outside from rfl]
    rw [hqd]
    rw [show scanChars .outside (" \x7b\n        artworksConnection(").data = .outside from rfl]
    rw [hconn]
    rfl
  unfold wellFormedStrings
  rw [hscan]
  rfl

/-- Witness for C2 at a concrete FilterSpec whose keyword contains quote
characters. -/
theorem c2_witness :
    ValidFilterSpec [("keyword", .vStr "he said \"hi\"")] = true ∧
    noBackslashValues [("keyword", .vStr "he said \"hi\"")] = true ∧
    wellFormedStrings (graphqlQueryText [("keyword", .vStr "he said \"hi\"")] (some "cur")) = true :=
  ⟨rfl, rfl, c2_quotes_escaped [("keyword", .vStr "he said \"hi\"")] (some "cur") rfl rfl⟩

/-- Counterexample to C3 as stated: the empty string is a supplied cursor,
yet the compiled query declares no `$after` variable and the connection
arguments include no `after` argument, because the source tests the cursor
with JavaScript truthiness (`after ? ... : ...`) and `""` is falsy. -/
theorem c3_counterexample :
    ¬ AfterVarDeclared (some "") ∧
    ¬ AfterArgIncluded [("keyword", .vStr "monet")] (some "") ∧
    queryDefinition (some "") = "query SearchArtworks($size: Int)" :=
  ⟨by unfold AfterVarDeclared; decide,
   by unfold AfterArgIncluded; decide,
   rfl⟩

/-- C3 as amended: for every well-typed FilterSpec, the compiled query text
declares the `$after` cursor variable, and the connection-arguments clause
includes the `after` argument, if and only if a non-empty (truthy) cursor
was supplied; a supplied empty-string cursor behaves like no cursor. -/
theorem c3_cursor_iff (params : Record) (after : Option String)
    (h : ValidFilterSpec params = true) :
    (AfterVarDeclared after ↔ afterTruthy after = true) ∧
    (AfterArgIncluded params after ↔ afterTruthy after = true) := by
  have hwt : params.all (fun e => wellTypedField e.1 e.2) = true := by
    unfold ValidFilterSpec at h
    exact (Bool.and_eq_true _ _).mp h |>.1
  refine ⟨afterVar_iff after, ?_, ?_⟩
  · intro hinc
    cases hx : afterTruthy after with
    | true => rfl
    | false => exact absurd hinc (not_afterArg_of_no_cursor params hwt after hx)
  · exact afterArg_of_cursor params after

/-- Witness for C3 at a concrete FilterSpec and a concrete non-empty cursor. -/
theorem c3_witness :
    ValidFilterSpec [("keyword", .vStr "monet")] = true ∧
    ((AfterVarDeclared (some "abc123") ↔ afterTruthy (some "abc123") = true) ∧
     (AfterArgIncluded [("keyword", .vStr "monet")] (some "abc123") ↔
      afterTruthy (some "abc123") = true)) :=
  ⟨rfl, c3_cursor_iff [("keyword", .vStr "monet")] (some "abc123") rfl⟩

/-- Configuration missing the model API key. -/
def cfgNoGoogle : Config :=
  { googleApiKey := none, artsyAccessToken := some "a-token",
    artsyUserId := some "a-user", artsyApiUrl := some "https://metaphysics.artsy.net" }

/-- Witness for C5 exercising both amended branches at concrete
configurations. -/
theorem c5_witness :
    envTruthy cfgNoGoogle.googleApiKey = false ∧
    handler cfgNoGoogle .errored respEmptyOk reqMonet
      = ([], errResp500 (.configError "API key is not defined")) ∧
    envTruthy cfgNoToken.artsyAccessToken = false ∧
    handler cfgNoToken .errored respEmptyOk reqMonet
      = ([.modelCall], errResp500 (.configError "Artsy API token or URL is not defined")) :=
  ⟨rfl,
   (c5_config_errors cfgNoGoogle .errored respEmptyOk reqMonet rfl rfl rfl rfl).1 rfl,
   rfl,
   (c5_config_errors cfgNoToken .errored respEmptyOk reqMonet rfl rfl rfl rfl).2 rfl
     (Or.inl rfl)⟩
